import Mathlib

/-!
Verification of the Brain streaming conversation system.

The development embeds, faithfully to the repository:
- the `messages` table and its `increment_message_sequence` trigger from
  `specs/001-agent-conversation-system/data-model.md`;
- the session-history query (`ORDER BY m.sequence`, charts `ORDER BY c.sequence`)
  from the same document, and `MessageAPI.list` from the frontend API client;
- the `useSSE` hook and the `ChatContainer.onChartReady` handler from the
  frontend sources, as explicit state-transition functions;
- the SSE event vocabulary from `frontend/src/types/api.ts`.

The backend orchestration engine (Session/Turn Manager, Generation Adapter,
Chart Coordinator, Event Multiplexer, Persistence Writer) is not present in
the repository's sources; those parts are modelled from the specification and
are marked `Modelled from the spec:` in their doc comments.
-/

namespace Brain

/-- A row of the `messages` table (data-model.md §3): id, session_id, role,
content, and the per-session `sequence` column (INTEGER, so `Int`). -/
structure MessageRow where
  id : Nat
  sessionId : Nat
  role : String
  content : String
  sequence : Int
  deriving Repr, DecidableEq

/-- The `sequence` values of the messages of one session, in row order:
`SELECT sequence FROM messages WHERE session_id = sid`. -/
def sessionSeqs (msgs : List MessageRow) (sid : Nat) : List Int :=
  (msgs.filter fun m => m.sessionId == sid).map fun m => m.sequence

/-- SQL `COALESCE(MAX(sequence), -1)` over the messages of one session, as in the
body of the `increment_message_sequence` trigger (data-model.md lines 181-198). -/
def maxSequence (msgs : List MessageRow) (sid : Nat) : Int :=
  (sessionSeqs msgs sid).foldl max (-1)

/-- The message store: the `messages` table plus the per-session
`sessions.message_count` counter that the trigger maintains. -/
structure MessagesDB where
  messages : List MessageRow
  messageCount : Nat → Nat

def emptyDB : MessagesDB := ⟨[], fun _ => 0⟩

/-- The `BEFORE INSERT` trigger `increment_message_sequence`
(data-model.md lines 181-204): sets `NEW.sequence` to
`COALESCE(MAX(sequence), -1) + 1` over the rows of the same session. -/
def increment_message_sequence (db : MessagesDB) (row : MessageRow) : MessageRow :=
  { row with sequence := maxSequence db.messages row.sessionId + 1 }

/-- An `INSERT INTO messages`: the trigger fires before the insert, assigning the
sequence; the trigger also bumps `sessions.message_count` for the session. -/
def insertMessage (db : MessagesDB) (row : MessageRow) : MessagesDB :=
  { messages := db.messages ++ [increment_message_sequence db row],
    messageCount := fun sid =>
      if sid = row.sessionId then db.messageCount sid + 1 else db.messageCount sid }

/-- A series of inserts (many turns, possibly for several conversations;
a failed turn simply contributes no insert). -/
def insertAll (db : MessagesDB) (rows : List MessageRow) : MessagesDB :=
  rows.foldl insertMessage db

/-- The sequence invariant: per session the stored sequences are exactly
`0, 1, ..., n-1` in row order. -/
def SeqInv (db : MessagesDB) : Prop :=
  ∀ sid, sessionSeqs db.messages sid
    = (List.range (sessionSeqs db.messages sid).length).map Int.ofNat

theorem foldl_max_intRange (n : Nat) :
    ((List.range n).map Int.ofNat).foldl max (-1) = (n : Int) - 1 := by
  induction n with
  | zero => simp
  | succ n ih =>
    rw [List.range_succ, List.map_append, List.foldl_append, ih]
    simp only [List.map_cons, List.map_nil, List.foldl_cons, List.foldl_nil,
      Int.ofNat_eq_natCast]
    rw [max_eq_right (by omega)]
    push_cast
    ring

theorem seqInv_empty : SeqInv emptyDB := by
  intro sid
  simp [emptyDB, sessionSeqs]

theorem seqInv_insert (db : MessagesDB) (row : MessageRow) (h : SeqInv db) :
    SeqInv (insertMessage db row) := by
  intro sid
  by_cases hs : row.sessionId = sid
  · have hfilter : (insertMessage db row).messages.filter (fun m => m.sessionId == sid)
        = db.messages.filter (fun m => m.sessionId == sid)
          ++ [increment_message_sequence db row] := by
      rw [insertMessage, List.filter_append]
      simp [increment_message_sequence, hs]
    have hmax : maxSequence db.messages row.sessionId
        = ((sessionSeqs db.messages sid).length : Int) - 1 := by
      rw [maxSequence, hs, h sid, foldl_max_intRange]
      simp
    have hseq : (increment_message_sequence db row).sequence
        = ((sessionSeqs db.messages sid).length : Int) := by
      simp [increment_message_sequence, hmax]
    have hss : sessionSeqs (insertMessage db row).messages sid
        = sessionSeqs db.messages sid ++ [(increment_message_sequence db row).sequence] := by
      rw [sessionSeqs, hfilter, List.map_append]
      rfl
    have hinv := h sid
    rw [hss, hseq, hinv]
    simp [List.range_succ, Int.ofNat_eq_natCast]
  · have hfilter : (insertMessage db row).messages.filter (fun m => m.sessionId == sid)
        = db.messages.filter (fun m => m.sessionId == sid) := by
      rw [insertMessage, List.filter_append]
      simp [increment_message_sequence, hs]
    have hss : sessionSeqs (insertMessage db row).messages sid = sessionSeqs db.messages sid := by
      rw [sessionSeqs, hfilter]; rfl
    rw [hss]
    exact h sid

theorem seqInv_insertAll (rows : List MessageRow) (db : MessagesDB) (h : SeqInv db) :
    SeqInv (insertAll db rows) := by
  induction rows generalizing db with
  | nil => exact h
  | cons r rest ih => exact ih (insertMessage db r) (seqInv_insert db r h)

theorem chain'_intRange (n : Nat) :
    List.Chain' (fun a b : Int => b = a + 1) ((List.range n).map Int.ofNat) := by
  rw [List.chain'_map]
  match n with
  | 0 => simp
  | m + 1 =>
    rw [List.chain'_range_succ]
    intro k _
    simp only [Int.ofNat_eq_natCast]
    push_cast
    ring

theorem nodup_intRange (n : Nat) : ((List.range n).map Int.ofNat).Nodup :=
  (List.nodup_range n).map fun _ _ h => Int.ofNat_inj.mp h

/-- C1: across any series of inserts (turns), each conversation's sequence
numbers are exactly `0, 1, ..., n-1` in insertion order: strictly increasing
by exactly 1, no gaps, each assigned exactly once; a failed or retried turn
(which contributes no insert, or a later insert) cannot create a gap. -/
theorem message_sequences_strictly_increasing_no_gaps
    (rows : List MessageRow) (sid : Nat) :
    sessionSeqs (insertAll emptyDB rows).messages sid
      = (List.range (sessionSeqs (insertAll emptyDB rows).messages sid).length).map Int.ofNat
    ∧ List.Chain' (fun a b : Int => b = a + 1)
        (sessionSeqs (insertAll emptyDB rows).messages sid)
    ∧ (sessionSeqs (insertAll emptyDB rows).messages sid).Nodup := by
  have h := seqInv_insertAll rows emptyDB seqInv_empty sid
  refine ⟨h, ?_, ?_⟩
  · rw [h]; exact chain'_intRange _
  · rw [h]; exact nodup_intRange _

/-! ## SSE event vocabulary (frontend/src/types/api.ts lines 75-114)

Opaque JSON payloads (`chart_config`, …) are carried as plain strings. -/

/-- Record `MessageChunkEvent {content, is_final}` (api.ts lines 82-85). -/
structure MessageChunkEvent where
  content : String
  isFinal : Bool
  deriving Repr, DecidableEq

/-- Record `ChartReadyEvent {chart_id, chart_type, chart_config, sequence}`
(api.ts lines 87-92); `sequence` is the chart's fixed intent ordinal. -/
structure ChartReadyEvent where
  chartId : String
  chartType : String
  chartConfig : String
  sequence : Nat
  deriving Repr, DecidableEq

/-- Record `MessageCompleteEvent {message_id, sequence, total_charts}` (api.ts lines 94-98). -/
structure MessageCompleteEvent where
  messageId : Nat
  sequence : Int
  totalCharts : Nat
  deriving Repr, DecidableEq

/-- Record `ErrorEvent {error_code, error_message}` (api.ts lines 100-103). -/
structure ErrorEvent where
  errorCode : String
  errorMessage : String
  deriving Repr, DecidableEq

/-- The SSE event types (api.ts `SSEEventType`: message_chunk, chart_ready,
message_complete, error, ping), plus the omitted-chart variant
`{ordinal, reason}` the spec names in §6 as the degraded form of chart_ready. -/
inductive SSEEvent where
  | message_chunk (e : MessageChunkEvent)
  | chart_ready (e : ChartReadyEvent)
  | chart_omitted (ordinal : Nat) (reason : String)
  | message_complete (e : MessageCompleteEvent)
  | error (e : ErrorEvent)
  | ping
  deriving Repr, DecidableEq

/-! ## The useSSE hook (src/unnamed/part_001 lines 76-297), as explicit state
transitions. `eventSourceOpen` models `eventSourceRef.current !== null`,
`reconnectTimerSet` models `reconnectTimeoutRef.current !== null`. -/

/-- The mutable state of `useSSE`. -/
structure SSEState where
  isConnected : Bool
  isConnecting : Bool
  error : Option String
  accumulatedContent : String
  eventSourceOpen : Bool
  reconnectTimerSet : Bool
  reconnectAttempts : Nat
  deriving Repr, DecidableEq

/-- Callback `disconnect` (lines 107-121): close and null the EventSource, clear and
null the reconnect timer, clear both connection flags, reset the attempt
counter to 0. -/
def disconnect (s : SSEState) : SSEState :=
  { s with eventSourceOpen := false, reconnectTimerSet := false,
           isConnected := false, isConnecting := false, reconnectAttempts := 0 }

/-- Callback `connect` (lines 126-147): clears the old connection, resets error and
accumulated content, marks connecting, opens a new EventSource. -/
def connect (s : SSEState) : SSEState :=
  { disconnect s with error := none, accumulatedContent := "",
                      isConnecting := true, eventSourceOpen := true }

/-- The `message_chunk` listener (lines 167-180): appends `data.content` to the
accumulated content. -/
def handleMessageChunk (s : SSEState) (e : MessageChunkEvent) : SSEState :=
  { s with accumulatedContent := s.accumulatedContent ++ e.content }

/-- The `message_complete` listener (lines 193-209): closes and nulls the
EventSource and clears both connection flags (it does not touch the reconnect
timer or counter). -/
def handleMessageComplete (s : SSEState) : SSEState :=
  { s with eventSourceOpen := false, isConnected := false, isConnecting := false }

/-- The server-sent `error` listener (lines 212-223): records the error
message, then disconnects. -/
def handleServerError (s : SSEState) (e : ErrorEvent) : SSEState :=
  disconnect { s with error := some e.errorMessage }

/-- The retry message built at lines 256-258. -/
def retryingMessage (attempt maxAttempts delayMs : Nat) : String :=
  "连接断开," ++ toString (delayMs / 1000) ++ "秒后重试(" ++ toString attempt
    ++ "/" ++ toString maxAttempts ++ ")..."

/-- Handler `eventSource.onerror` (lines 231-267). `closed` models
`eventSource.readyState === EventSource.CLOSED`. Below the attempt cap the
handler increments the counter and arms the reconnect timer; at the cap it
records the failure message and disconnects. -/
def handleConnectionError (maxReconnectAttempts reconnectDelay : Nat) (closed : Bool)
    (s : SSEState) : SSEState :=
  if closed then
    { s with isConnected := false, isConnecting := false }
  else
    let s1 : SSEState := { s with isConnected := false, isConnecting := false }
    if s1.reconnectAttempts < maxReconnectAttempts then
      let s2 : SSEState := { s1 with reconnectAttempts := s1.reconnectAttempts + 1 }
      { s2 with
        error := some (retryingMessage s2.reconnectAttempts maxReconnectAttempts reconnectDelay),
        reconnectTimerSet := true }
    else
      disconnect { s1 with error := some "连接失败,已达到最大重试次数" }

/-- The quiescent hook state: both connection flags down, EventSource and
reconnect timer cleared, attempt counter reset to 0. -/
def Quiescent (s : SSEState) : Prop :=
  s.isConnected = false ∧ s.isConnecting = false ∧ s.eventSourceOpen = false
    ∧ s.reconnectTimerSet = false ∧ s.reconnectAttempts = 0

/-- C9: every path that ends the client-side stream — the manual `disconnect`
call, a server-sent `error` event, and exhaustion of reconnect attempts —
leaves the useSSE hook in the same quiescent state. -/
theorem sse_stream_end_paths_quiescent (s : SSEState) (e : ErrorEvent)
    (maxAttempts delay : Nat) (h : maxAttempts ≤ s.reconnectAttempts) :
    Quiescent (disconnect s) ∧ Quiescent (handleServerError s e)
      ∧ Quiescent (handleConnectionError maxAttempts delay false s) := by
  refine ⟨?_, ?_, ?_⟩ <;>
    simp [Quiescent, disconnect, handleServerError, handleConnectionError, Nat.not_lt.mpr h]

/-- Witness for C9: the three stream-ending paths at a concrete state. -/
theorem sse_stream_end_paths_quiescent_witness :
    Quiescent (disconnect ⟨true, false, none, "abc", true, true, 2⟩)
      ∧ Quiescent (handleServerError ⟨true, false, none, "abc", true, true, 2⟩ ⟨"E1", "boom"⟩)
      ∧ Quiescent (handleConnectionError 2 3000 false ⟨true, false, none, "abc", true, true, 2⟩) :=
  sse_stream_end_paths_quiescent ⟨true, false, none, "abc", true, true, 2⟩ ⟨"E1", "boom"⟩
    2 3000 (by decide)

/-- Client-side content accumulation (useSSE lines 167-180): each
`message_chunk` event appends `data.content` to the previous accumulated
content; other event kinds leave it unchanged. Folded over a delivered event
list in delivery order. -/
def accumulateContent (evs : List SSEEvent) : String :=
  evs.foldl
    (fun acc e =>
      match e with
      | .message_chunk c => acc ++ c.content
      | _ => acc)
    ""

/-! ## ChatContainer (frontend/src/components/Chat/ChatContainer.tsx) -/

/-- The frontend `Chart` record (api.ts lines 40-46). -/
structure Chart where
  id : String
  chartType : String
  chartConfig : String
  sequence : Nat
  createdAt : String
  deriving Repr, DecidableEq

/-- The transient streaming assistant message (ChatContainer.tsx lines 25-28). -/
structure StreamingMessage where
  content : String
  charts : List Chart
  deriving Repr, DecidableEq

/-- The `onChartReady` state update (ChatContainer.tsx lines 35-53): with no
active streaming message the previous state is returned unchanged; otherwise
the chart is pushed onto the end of the charts array. `now` is the
`new Date().toISOString()` timestamp. -/
def onChartReady (prev : Option StreamingMessage) (data : ChartReadyEvent)
    (now : String) : Option StreamingMessage :=
  match prev with
  | none => none
  | some p =>
      some { p with charts := p.charts
              ++ [⟨data.chartId, data.chartType, data.chartConfig, data.sequence, now⟩] }

/-- C10: a chart_ready event with no active streaming message leaves the state
unchanged (the chart is silently discarded); with an active message the chart
is appended at the end of the charts array — at position `p.charts.length`,
for every value of `data.sequence`, hence in arrival order rather than at its
ordinal position. -/
theorem chart_ready_discarded_or_appended (data : ChartReadyEvent) (now : String) :
    onChartReady none data now = none
    ∧ ∀ p : StreamingMessage,
        onChartReady (some p) data now
          = some { p with charts := p.charts
                    ++ [⟨data.chartId, data.chartType, data.chartConfig, data.sequence, now⟩] } := by
  exact ⟨rfl, fun p => rfl⟩

/-! ## Chart Coordinator and Event Multiplexer

The backend engine is not present in the repository's sources; the following
definitions are modelled from the specification (§4.2-§4.5, §6). -/

/-- Modelled from the spec: a chart intent surfaced by the Generation Adapter
(§4.2), with its 0-based ordinal fixed at detection time and an opaque
structured chart specification. The backend Generation Adapter source is
missing from the repository. -/
structure ChartIntent where
  ordinal : Nat
  chartSpec : String
  deriving Repr, DecidableEq

/-- Modelled from the spec: ordinals are assigned in detection order starting
at `k`. -/
def detectIntentsFrom (k : Nat) : List String → List ChartIntent
  | [] => []
  | s :: rest => ⟨k, s⟩ :: detectIntentsFrom (k + 1) rest

/-- Modelled from the spec: intent ordinals are 0-based and assigned at
detection time, independent of completion order (§3 invariant 3). -/
def detectIntents (specs : List String) : List ChartIntent :=
  detectIntentsFrom 0 specs

/-- The settled outcome of one chart call: a renderable configuration, or an
omitted marker with a reason string (data model §3 ChartArtifact outcome). -/
inductive ChartOutcome where
  | ready (config : String)
  | omitted (reason : String)
  deriving Repr, DecidableEq

/-- One settled chart result, keyed by its fixed intent ordinal (§4.3). -/
structure ChartResult where
  ordinal : Nat
  outcome : ChartOutcome
  deriving Repr, DecidableEq

/-- Modelled from the spec: §4.3 Chart Coordinator — each call settles
independently; on upstream success the result is the returned configuration,
on timeout or upstream failure the result for that ordinal becomes `omitted`
with a reason string. `upstream` maps each ordinal to its external outcome;
the backend Chart Coordinator source is missing from the repository. -/
def settleIntent (upstream : Nat → Except String String) (i : ChartIntent) : ChartResult :=
  match upstream i.ordinal with
  | .ok cfg => ⟨i.ordinal, .ready cfg⟩
  | .error reason => ⟨i.ordinal, .omitted reason⟩

/-- Modelled from the spec: the outbound event for a settled chart, carrying
the fixed intent ordinal (§4.4); the chart id and kind are opaque labels. -/
def chartEvent (r : ChartResult) : SSEEvent :=
  match r.outcome with
  | .ready cfg => .chart_ready ⟨"chart-" ++ toString r.ordinal, "chart", cfg, r.ordinal⟩
  | .omitted reason => .chart_omitted r.ordinal reason

/-- Modelled from the spec: §4.4 Event Multiplexer, successful run — chunk
events in strict generation order (FIFO), then the chart events in the order
the calls settled (the `settled` parameter, each event carrying its fixed
ordinal), then exactly one `complete` event whose total chart count includes
ready and omitted charts alike. The `is_final` chunk flag is carried as
`false`; no claim depends on it. The backend Event Multiplexer source is
missing from the repository. -/
def completeStream (chunks : List String) (settled : List ChartResult)
    (msgId : Nat) (seq : Int) : List SSEEvent :=
  (chunks.map fun c => SSEEvent.message_chunk ⟨c, false⟩)
    ++ settled.map chartEvent
    ++ [SSEEvent.message_complete ⟨msgId, seq, settled.length⟩]

/-- Modelled from the spec: §4.4 FAILED — after the chunks already emitted,
one `error` event with a stable code and message; no further events follow. -/
def errorStream (chunks : List String) (e : ErrorEvent) : List SSEEvent :=
  (chunks.map fun c => SSEEvent.message_chunk ⟨c, false⟩) ++ [SSEEvent.error e]

/-- Modelled from the spec: the event streams a turn can emit (§4.4): either a
successful run ending in `complete`, or a failed run ending in `error`. -/
inductive TurnStream : List SSEEvent → Prop
  | completed (chunks : List String) (settled : List ChartResult) (msgId : Nat) (seq : Int) :
      TurnStream (completeStream chunks settled msgId seq)
  | failed (chunks : List String) (e : ErrorEvent) :
      TurnStream (errorStream chunks e)

/-- The two terminal event kinds (§4.4: COMPLETE and FAILED). -/
def isTerminal : SSEEvent → Bool
  | .message_complete _ => true
  | .error _ => true
  | _ => false

/-- An `error` event (used to state that chart failures never produce one). -/
def isErrorEvent : SSEEvent → Bool
  | .error _ => true
  | _ => false

theorem isTerminal_chartEvent (r : ChartResult) : isTerminal (chartEvent r) = false := by
  cases hr : r.outcome <;> simp [chartEvent, hr, isTerminal]

theorem isErrorEvent_chartEvent (r : ChartResult) : isErrorEvent (chartEvent r) = false := by
  cases hr : r.outcome <;> simp [chartEvent, hr, isErrorEvent]

/-- C3: any turn stream carries exactly one terminal event (`complete` or
`error`), it is the last event delivered, and no event of any kind follows it. -/
theorem turn_stream_unique_terminal (evs : List SSEEvent) (h : TurnStream evs) :
    (∃ t, evs.getLast? = some t ∧ isTerminal t = true)
      ∧ (∀ e ∈ evs.dropLast, isTerminal e = false)
      ∧ (evs.filter isTerminal).length = 1 := by
  cases h with
  | completed chunks settled msgId seq =>
    rw [completeStream]
    refine ⟨⟨SSEEvent.message_complete ⟨msgId, seq, settled.length⟩,
        List.getLast?_concat _, rfl⟩, ?_, ?_⟩
    · rw [List.dropLast_concat]
      intro e he
      rcases List.mem_append.mp he with h1 | h2
      · obtain ⟨c, _, rfl⟩ := List.mem_map.mp h1
        rfl
      · obtain ⟨r, _, rfl⟩ := List.mem_map.mp h2
        exact isTerminal_chartEvent r
    · rw [List.filter_append, List.filter_append]
      have h1 : (chunks.map fun c => SSEEvent.message_chunk ⟨c, false⟩).filter isTerminal = [] := by
        rw [List.filter_eq_nil_iff]
        intro e he
        obtain ⟨c, _, rfl⟩ := List.mem_map.mp he
        simp [isTerminal]
      have h2 : (settled.map chartEvent).filter isTerminal = [] := by
        rw [List.filter_eq_nil_iff]
        intro e he
        obtain ⟨r, _, rfl⟩ := List.mem_map.mp he
        simp [isTerminal_chartEvent r]
      rw [h1, h2]
      rfl
  | failed chunks e =>
    rw [errorStream]
    refine ⟨⟨SSEEvent.error e, List.getLast?_concat _, rfl⟩, ?_, ?_⟩
    · rw [List.dropLast_concat]
      intro x hx
      obtain ⟨c, _, rfl⟩ := List.mem_map.mp hx
      rfl
    · rw [List.filter_append]
      have h1 : (chunks.map fun c => SSEEvent.message_chunk ⟨c, false⟩).filter isTerminal = [] := by
        rw [List.filter_eq_nil_iff]
        intro x hx
        obtain ⟨c, _, rfl⟩ := List.mem_map.mp hx
        simp [isTerminal]
      rw [h1]
      rfl

/-- Witness for C3: a concrete successful run. -/
theorem turn_stream_unique_terminal_witness :
    (∃ t, (completeStream ["hi", "!"] [⟨0, .ready "cfg"⟩] 9 4).getLast? = some t
        ∧ isTerminal t = true)
      ∧ (∀ e ∈ (completeStream ["hi", "!"] [⟨0, .ready "cfg"⟩] 9 4).dropLast,
          isTerminal e = false)
      ∧ ((completeStream ["hi", "!"] [⟨0, .ready "cfg"⟩] 9 4).filter isTerminal).length = 1 :=
  turn_stream_unique_terminal _ (TurnStream.completed ["hi", "!"] [⟨0, .ready "cfg"⟩] 9 4)

/-- The intent ordinal carried by a chart event, if the event is one. -/
def chartOrdinal? : SSEEvent → Option Nat
  | .chart_ready e => some e.sequence
  | .chart_omitted o _ => some o
  | _ => none

/-- The ordinals of the chart events of a stream, in delivery order. -/
def chartOrdinals (evs : List SSEEvent) : List Nat :=
  evs.filterMap chartOrdinal?

theorem chartOrdinal?_chartEvent (r : ChartResult) :
    chartOrdinal? (chartEvent r) = some r.ordinal := by
  cases hr : r.outcome <;> simp [chartEvent, hr, chartOrdinal?]

theorem settleIntent_ordinal (upstream : Nat → Except String String) (i : ChartIntent) :
    (settleIntent upstream i).ordinal = i.ordinal := by
  rw [settleIntent]
  cases upstream i.ordinal <;> rfl

theorem detectIntentsFrom_ordinals (specs : List String) (k : Nat) :
    (detectIntentsFrom k specs).map (fun i => i.ordinal) = List.range' k specs.length := by
  induction specs generalizing k with
  | nil => rfl
  | cons s rest ih =>
    simp [detectIntentsFrom, List.range', ih]

theorem detectIntents_ordinals (specs : List String) :
    (detectIntents specs).map (fun i => i.ordinal) = List.range specs.length := by
  rw [detectIntents, detectIntentsFrom_ordinals, List.range_eq_range']

theorem detectIntents_length (specs : List String) :
    (detectIntents specs).length = specs.length := by
  have h := congrArg List.length (detectIntents_ordinals specs)
  simpa using h

theorem count_range_eq (n a : Nat) :
    (List.range n).count a = if a < n then 1 else 0 := by
  induction n with
  | zero => simp
  | succ n ih =>
    rw [List.range_succ, List.count_append, ih]
    simp only [List.count_cons, List.count_nil, beq_iff_eq]
    split_ifs <;> omega

theorem chartOrdinals_completeStream (chunks : List String) (settled : List ChartResult)
    (msgId : Nat) (seq : Int) :
    chartOrdinals (completeStream chunks settled msgId seq)
      = settled.map (fun r => r.ordinal) := by
  rw [completeStream, chartOrdinals, List.filterMap_append, List.filterMap_append]
  have h1 : (chunks.map fun c => SSEEvent.message_chunk ⟨c, false⟩).filterMap chartOrdinal?
      = [] := by
    rw [List.filterMap_eq_nil_iff]
    intro e he
    obtain ⟨c, _, rfl⟩ := List.mem_map.mp he
    rfl
  have h2 : (settled.map chartEvent).filterMap chartOrdinal?
      = settled.map (fun r => r.ordinal) := by
    induction settled with
    | nil => rfl
    | cons r rest ih => simp [List.filterMap_cons, chartOrdinal?_chartEvent r, ih]
  rw [h1, h2]
  simp [List.filterMap_cons, chartOrdinal?]

/-- C2: for a turn whose `specs.length = N ≤ 5` detected intents settle in any
completion order, the terminal `complete` event carries `total_charts = N`,
and each ordinal in `[0, N)` appears exactly once across the
chart_ready/omitted events of the stream. -/
theorem complete_event_totals_and_ordinals
    (specs : List String) (upstream : Nat → Except String String)
    (chunks : List String) (msgId : Nat) (seq : Int) (settled : List ChartResult)
    (h5 : specs.length ≤ 5)
    (hperm : settled.Perm ((detectIntents specs).map (settleIntent upstream))) :
    (completeStream chunks settled msgId seq).getLast?
        = some (.message_complete ⟨msgId, seq, specs.length⟩)
      ∧ (chartOrdinals (completeStream chunks settled msgId seq)).Perm
          (List.range specs.length)
      ∧ ∀ o, (chartOrdinals (completeStream chunks settled msgId seq)).count o
          = if o < specs.length then 1 else 0 := by
  have hlen : settled.length = specs.length := by
    rw [hperm.length_eq, List.length_map, detectIntents_length]
  have hords : (settled.map fun r => r.ordinal).Perm (List.range specs.length) := by
    have h1 : (((detectIntents specs).map (settleIntent upstream)).map fun r => r.ordinal)
        = List.range specs.length := by
      rw [List.map_map]
      have : ((fun r : ChartResult => r.ordinal) ∘ settleIntent upstream)
          = fun i : ChartIntent => i.ordinal := by
        funext i
        exact settleIntent_ordinal upstream i
      rw [this, detectIntents_ordinals]
    rw [← h1]
    exact hperm.map _
  refine ⟨?_, ?_, ?_⟩
  · rw [completeStream, hlen]
    exact List.getLast?_concat _
  · rw [chartOrdinals_completeStream]
    exact hords
  · intro o
    rw [chartOrdinals_completeStream, hords.count_eq, count_range_eq]

/-- Witness for C2: two intents settling in reverse order still give
`total_charts = 2` and ordinals 0 and 1 exactly once each. -/
theorem complete_event_totals_and_ordinals_witness :
    (completeStream ["text"] [⟨1, .omitted "timeout"⟩, ⟨0, .ready "cfg0"⟩] 7 3).getLast?
        = some (.message_complete ⟨7, 3, 2⟩)
      ∧ (chartOrdinals
          (completeStream ["text"] [⟨1, .omitted "timeout"⟩, ⟨0, .ready "cfg0"⟩] 7 3)).Perm
          (List.range 2)
      ∧ ∀ o, (chartOrdinals
          (completeStream ["text"] [⟨1, .omitted "timeout"⟩, ⟨0, .ready "cfg0"⟩] 7 3)).count o
          = if o < 2 then 1 else 0 :=
  complete_event_totals_and_ordinals ["barSpec", "lineSpec"]
    (fun o => if o = 0 then .ok "cfg0" else .error "timeout")
    ["text"] 7 3 [⟨1, .omitted "timeout"⟩, ⟨0, .ready "cfg0"⟩]
    (by decide) (by decide)

/-- C6: a chart call whose upstream outcome is a failure (or timeout) surfaces
as a `chart_omitted` event with that ordinal and reason — a degraded artifact —
while the turn still ends in `complete`: the stream contains no `error` event
at all. -/
theorem chart_failure_degrades_never_fails_turn
    (specs : List String) (upstream : Nat → Except String String)
    (chunks : List String) (msgId : Nat) (seq : Int) (o : Nat) (r : String)
    (ho : o < specs.length) (hf : upstream o = .error r) :
    SSEEvent.chart_omitted o r
        ∈ completeStream chunks ((detectIntents specs).map (settleIntent upstream)) msgId seq
      ∧ (∀ e ∈ completeStream chunks ((detectIntents specs).map (settleIntent upstream))
            msgId seq, isErrorEvent e = false)
      ∧ (completeStream chunks ((detectIntents specs).map (settleIntent upstream))
            msgId seq).getLast?
          = some (.message_complete ⟨msgId, seq, specs.length⟩) := by
  refine ⟨?_, ?_, ?_⟩
  · have hmem : o ∈ (detectIntents specs).map (fun i => i.ordinal) := by
      rw [detectIntents_ordinals]
      exact List.mem_range.mpr ho
    obtain ⟨i, hi, hio⟩ := List.mem_map.mp hmem
    have hsettle : settleIntent upstream i = ⟨o, .omitted r⟩ := by
      rw [settleIntent, hio, hf]
    have hev : chartEvent (settleIntent upstream i) = SSEEvent.chart_omitted o r := by
      rw [hsettle, chartEvent]
    rw [completeStream]
    refine List.mem_append.mpr (Or.inl (List.mem_append.mpr (Or.inr ?_)))
    rw [← hev]
    exact List.mem_map.mpr ⟨settleIntent upstream i, List.mem_map.mpr ⟨i, hi, rfl⟩, rfl⟩
  · intro e he
    rw [completeStream] at he
    rcases List.mem_append.mp he with h1 | h2
    · rcases List.mem_append.mp h1 with ha | hb
      · obtain ⟨c, _, rfl⟩ := List.mem_map.mp ha
        rfl
      · obtain ⟨res, _, rfl⟩ := List.mem_map.mp hb
        exact isErrorEvent_chartEvent res
    · rw [List.mem_singleton.mp h2]
      rfl
  · rw [completeStream, List.length_map, detectIntents_length]
    exact List.getLast?_concat _

/-- Witness for C6: one failing chart among two → omitted event, no error
event, terminal complete. -/
theorem chart_failure_degrades_never_fails_turn_witness :
    SSEEvent.chart_omitted 1 "upstream timeout"
        ∈ completeStream ["t"]
            ((detectIntents ["barSpec", "lineSpec"]).map
              (settleIntent fun o => if o = 0 then .ok "cfg0" else .error "upstream timeout"))
            5 2
      ∧ (∀ e ∈ completeStream ["t"]
            ((detectIntents ["barSpec", "lineSpec"]).map
              (settleIntent fun o => if o = 0 then .ok "cfg0" else .error "upstream timeout"))
            5 2, isErrorEvent e = false)
      ∧ (completeStream ["t"]
            ((detectIntents ["barSpec", "lineSpec"]).map
              (settleIntent fun o => if o = 0 then .ok "cfg0" else .error "upstream timeout"))
            5 2).getLast?
          = some (.message_complete ⟨5, 2, 2⟩) :=
  chart_failure_degrades_never_fails_turn ["barSpec", "lineSpec"]
    (fun o => if o = 0 then .ok "cfg0" else .error "upstream timeout")
    ["t"] 5 2 1 "upstream timeout" (by decide) rfl

/-- A policy-level rejection (spec §4.3: excess intents are rejected with a
policy error, not silently dropped). -/
inductive PolicyError where
  | tooManyCharts (count : Nat)
  deriving Repr, DecidableEq

/-- Modelled from the spec: §4.3 — a hard cap of 5 intents per message
(plan.md Scale/Scope: 每条消息最多5个图表) is enforced by the caller; any
excess is rejected with a policy error rather than silently dropped or
dispatched. The enforcing backend source is missing from the repository. -/
def acceptIntents (specs : List String) : Except PolicyError (List ChartIntent) :=
  if specs.length ≤ 5 then .ok (detectIntents specs)
  else .error (.tooManyCharts specs.length)

/-- C7: at most 5 chart intents per message are accepted; a message with more
than 5 intents is rejected with a policy error, and an accepted message has
every one of its intents dispatched (none dropped). -/
theorem chart_intent_cap_rejects_excess (specs : List String) :
    (specs.length ≤ 5 → acceptIntents specs = .ok (detectIntents specs))
      ∧ (5 < specs.length → acceptIntents specs = .error (.tooManyCharts specs.length))
      ∧ (∀ l, acceptIntents specs = .ok l → l.length = specs.length) := by
  refine ⟨fun h => by rw [acceptIntents, if_pos h], fun h => ?_, fun l hl => ?_⟩
  · rw [acceptIntents, if_neg (by omega)]
  · rw [acceptIntents] at hl
    by_cases h : specs.length ≤ 5
    · rw [if_pos h] at hl
      cases hl
      exact detectIntents_length specs
    · rw [if_neg h] at hl
      cases hl

/-- Witness for C7: six intents are rejected with the policy error; five are
accepted in full. -/
theorem chart_intent_cap_rejects_excess_witness :
    acceptIntents ["a", "b", "c", "d", "e", "f"] = .error (.tooManyCharts 6)
      ∧ acceptIntents ["a", "b", "c", "d", "e"] = .ok (detectIntents ["a", "b", "c", "d", "e"]) :=
  ⟨(chart_intent_cap_rejects_excess ["a", "b", "c", "d", "e", "f"]).2.1 (by decide),
   (chart_intent_cap_rejects_excess ["a", "b", "c", "d", "e"]).1 (by decide)⟩

/-! ## Persistence Writer -/

/-- A persisted assistant message together with all of its chart artifacts:
one Message row and its ChartArtifact rows, as committed by one transaction
(data-model.md lines 358-374; spec §4.5). -/
structure PersistedMessage where
  content : String
  status : String
  charts : List ChartResult
  deriving Repr, DecidableEq

/-- The persistent store the Persistence Writer appends to and history reads
from (spec §2: single source of truth). -/
structure Store where
  rows : List PersistedMessage
  deriving Repr, DecidableEq

/-- Modelled from the spec: §4.5 Persistence Writer — on the terminal event it
atomically writes one Message row whose content is the concatenation of all
chunks in emission order, together with all ChartArtifact rows (omitted ones
included), in a single transaction: one indivisible state transition appending
one composite record. The backend Persistence Writer source is missing from
the repository. -/
def persistTurn (store : Store) (chunks : List String) (status : String)
    (settled : List ChartResult) : Store :=
  ⟨store.rows ++ [⟨String.join chunks, status, settled⟩]⟩

/-- Modelled from the spec: history is served from the persistent store, the
single source of truth (§2, §4.4: a reconnecting client re-reads history). -/
def historyRead (store : Store) : List PersistedMessage :=
  store.rows

theorem accumulate_step_chunks (chunks : List String) (acc : String) :
    (chunks.map fun c => SSEEvent.message_chunk ⟨c, false⟩).foldl
        (fun acc e =>
          match e with
          | .message_chunk c => acc ++ c.content
          | _ => acc) acc
      = chunks.foldl (fun r s => r ++ s) acc := by
  induction chunks generalizing acc with
  | nil => rfl
  | cons c rest ih => simp [List.foldl_cons, ih]

theorem accumulate_step_charts (settled : List ChartResult) (acc : String) :
    (settled.map chartEvent).foldl
        (fun acc e =>
          match e with
          | .message_chunk c => acc ++ c.content
          | _ => acc) acc
      = acc := by
  induction settled generalizing acc with
  | nil => rfl
  | cons r rest ih =>
    rw [List.map_cons, List.foldl_cons]
    have hstep : (match chartEvent r with
        | SSEEvent.message_chunk c => acc ++ c.content
        | _ => acc) = acc := by
      cases hr : r.outcome <;> simp [chartEvent, hr]
    rw [hstep, ih]

theorem accumulateContent_completeStream (chunks : List String)
    (settled : List ChartResult) (msgId : Nat) (seq : Int) :
    accumulateContent (completeStream chunks settled msgId seq) = String.join chunks := by
  rw [accumulateContent, completeStream, List.foldl_append, List.foldl_append,
    accumulate_step_chunks, accumulate_step_charts]
  rfl

/-- C4: for a turn reaching COMPLETE, the persisted message content equals the
concatenation of the stream's chunk events in emission order (exactly what the
client-side `useSSE` accumulation computes over the delivered stream), and the
message row is appended together with all of its chart artifact rows — omitted
ones included — as one indivisible record in one transaction. -/
theorem persisted_content_is_chunk_concatenation_atomic
    (store : Store) (chunks : List String) (settled : List ChartResult)
    (msgId : Nat) (seq : Int) :
    (persistTurn store chunks "complete" settled).rows
      = store.rows
        ++ [⟨accumulateContent (completeStream chunks settled msgId seq),
             "complete", settled⟩] := by
  rw [persistTurn, accumulateContent_completeStream]

/-- Modelled from the spec: §4.4 CANCELLED and §5 — a client disconnect at
delivery position `d` stops event delivery to the client (it observes only a
prefix of the stream), but the turn is not aborted server-side: generation and
dispatched chart calls run to completion and the full result is persisted with
status `complete`. -/
def turnWithDisconnect (store : Store) (chunks : List String)
    (settled : List ChartResult) (msgId : Nat) (seq : Int) (d : Nat) :
    Store × List SSEEvent :=
  (persistTurn store chunks "complete" settled,
   (completeStream chunks settled msgId seq).take d)

/-- C5: whatever the disconnect position `d` — even `d = 0`, before any event
was delivered — the server-side outcome is identical to the no-disconnect
outcome: the full message is persisted with status `complete` and content
equal to the concatenation of all chunks, and a reconnecting client obtains
that result by reading history (`historyRead`), while the live stream only
ever gave it a prefix. -/
theorem disconnect_does_not_abort_turn
    (store : Store) (chunks : List String) (settled : List ChartResult)
    (msgId : Nat) (seq : Int) (d : Nat) :
    (turnWithDisconnect store chunks settled msgId seq d).1
        = (turnWithDisconnect store chunks settled msgId seq
            (completeStream chunks settled msgId seq).length).1
      ∧ (historyRead (turnWithDisconnect store chunks settled msgId seq d).1).getLast?
          = some ⟨accumulateContent (completeStream chunks settled msgId seq),
                  "complete", settled⟩
      ∧ (turnWithDisconnect store chunks settled msgId seq d).2
          = (completeStream chunks settled msgId seq).take d := by
  refine ⟨rfl, ?_, rfl⟩
  rw [turnWithDisconnect, historyRead, persistTurn, accumulateContent_completeStream]
  exact List.getLast?_concat _

/-! ## History reads -/

/-- A row of the `charts` table (data-model.md §4): id, message_id, chart_type,
chart_config, and the 0-based in-message `sequence` (the intent ordinal). -/
structure ChartRow where
  id : Nat
  messageId : Nat
  chartType : String
  chartConfig : String
  sequence : Nat
  deriving Repr, DecidableEq

/-- The session-history query (data-model.md lines 339-353), as served to
`MessageAPI.list` (src/unnamed/part_001 lines 451-464): the messages of one
session ordered by `m.sequence` (`ORDER BY m.sequence`), each paired with its
charts ordered by `c.sequence` (`ORDER BY c.sequence`). The input lists carry
the table rows in whatever physical order the database enumerates them; the
ORDER BY clauses impose the output order. -/
def sessionHistory (msgs : List MessageRow) (charts : List ChartRow) (sid : Nat) :
    List (MessageRow × List ChartRow) :=
  ((msgs.filter fun m => m.sessionId == sid).insertionSort
      fun a b => a.sequence ≤ b.sequence).map
    fun m =>
      (m, (charts.filter fun c => c.messageId == m.id).insertionSort
            fun a b => a.sequence ≤ b.sequence)

theorem insertionSort_key_eq {α β : Type} [LinearOrder β] (key : α → β)
    (l₁ l₂ : List α) (hperm : l₁.Perm l₂)
    (hnd : l₁.Pairwise fun a b => key a ≠ key b) :
    l₁.insertionSort (fun a b => key a ≤ key b)
      = l₂.insertionSort (fun a b => key a ≤ key b) := by
  haveI hTot : IsTotal α fun a b => key a ≤ key b := ⟨fun a b => le_total (key a) (key b)⟩
  haveI hTrans : IsTrans α fun a b => key a ≤ key b := ⟨fun _ _ _ h1 h2 => le_trans h1 h2⟩
  haveI hAnti : IsAntisymm α fun a b => key a < key b :=
    ⟨fun _ _ h1 h2 => absurd h1 (lt_asymm h2)⟩
  have hp₁ := List.perm_insertionSort (fun a b => key a ≤ key b) l₁
  have hp₂ := List.perm_insertionSort (fun a b => key a ≤ key b) l₂
  have hs₁ : (l₁.insertionSort fun a b => key a ≤ key b).Pairwise
      (fun a b => key a ≤ key b) := List.sorted_insertionSort _ l₁
  have hs₂ : (l₂.insertionSort fun a b => key a ≤ key b).Pairwise
      (fun a b => key a ≤ key b) := List.sorted_insertionSort _ l₂
  have hsymm : ∀ {x y : α}, key x ≠ key y → key y ≠ key x := fun h e => h e.symm
  have hnd₁ : (l₁.insertionSort fun a b => key a ≤ key b).Pairwise
      (fun a b => key a ≠ key b) := (hp₁.pairwise_iff hsymm).mpr hnd
  have hnd₂ : (l₂.insertionSort fun a b => key a ≤ key b).Pairwise
      (fun a b => key a ≠ key b) :=
    (hp₂.pairwise_iff hsymm).mpr ((hperm.pairwise_iff hsymm).mp hnd)
  have hlt₁ : (l₁.insertionSort fun a b => key a ≤ key b).Sorted
      (fun a b => key a < key b) :=
    (hs₁.and hnd₁).imp fun h => lt_of_le_of_ne h.1 h.2
  have hlt₂ : (l₂.insertionSort fun a b => key a ≤ key b).Sorted
      (fun a b => key a < key b) :=
    (hs₂.and hnd₂).imp fun h => lt_of_le_of_ne h.1 h.2
  exact List.eq_of_perm_of_sorted (hp₁.trans (hperm.trans hp₂.symm)) hlt₁ hlt₂

/-- C8: the history read is deterministic — the two reads of a completed
conversation return identical message contents, sequences, and chart ordinals
even if the database enumerates the stored rows in different physical orders
(`msgs₁ ~ msgs₂`, `charts₁ ~ charts₂`), because `ORDER BY` canonicalises the
output; the distinctness hypotheses are the table invariants (unique message
sequence per session, unique chart sequence per message) established by C1 and
by intent-ordinal assignment. -/
theorem history_read_idempotent
    (msgs₁ msgs₂ : List MessageRow) (charts₁ charts₂ : List ChartRow) (sid : Nat)
    (hm : msgs₁.Perm msgs₂) (hc : charts₁.Perm charts₂)
    (hmk : msgs₁.Pairwise fun a b => a.sessionId = b.sessionId → a.sequence ≠ b.sequence)
    (hck : charts₁.Pairwise fun a b => a.messageId = b.messageId → a.sequence ≠ b.sequence) :
    sessionHistory msgs₁ charts₁ sid = sessionHistory msgs₂ charts₂ sid := by
  rw [sessionHistory, sessionHistory]
  have hF : (msgs₁.filter fun m => m.sessionId == sid).Perm
      (msgs₂.filter fun m => m.sessionId == sid) := hm.filter _
  have hndF : (msgs₁.filter fun m => m.sessionId == sid).Pairwise
      fun a b => a.sequence ≠ b.sequence := by
    refine (hmk.filter _).imp_of_mem ?_
    intro a b ha hb hq
    have ha' := eq_of_beq (List.mem_filter.mp ha).2
    have hb' := eq_of_beq (List.mem_filter.mp hb).2
    exact hq (ha'.trans hb'.symm)
  have hsorted : ((msgs₁.filter fun m => m.sessionId == sid).insertionSort
        fun a b => a.sequence ≤ b.sequence)
      = ((msgs₂.filter fun m => m.sessionId == sid).insertionSort
        fun a b => a.sequence ≤ b.sequence) :=
    insertionSort_key_eq (fun m : MessageRow => m.sequence) _ _ hF hndF
  rw [hsorted]
  apply List.map_congr_left
  intro m _
  have hFc : (charts₁.filter fun c => c.messageId == m.id).Perm
      (charts₂.filter fun c => c.messageId == m.id) := hc.filter _
  have hndc : (charts₁.filter fun c => c.messageId == m.id).Pairwise
      fun a b => a.sequence ≠ b.sequence := by
    refine (hck.filter _).imp_of_mem ?_
    intro a b ha hb hq
    have ha' := eq_of_beq (List.mem_filter.mp ha).2
    have hb' := eq_of_beq (List.mem_filter.mp hb).2
    exact hq (ha'.trans hb'.symm)
  have hcs : ((charts₁.filter fun c => c.messageId == m.id).insertionSort
        fun a b => a.sequence ≤ b.sequence)
      = ((charts₂.filter fun c => c.messageId == m.id).insertionSort
        fun a b => a.sequence ≤ b.sequence) :=
    insertionSort_key_eq (fun c : ChartRow => c.sequence) _ _ hFc hndc
  rw [hcs]

/-- Witness for C8: the same conversation stored in two different physical row
orders reads back identically. -/
theorem history_read_idempotent_witness :
    sessionHistory
        [⟨1, 10, "user", "hi", 0⟩, ⟨2, 10, "assistant", "answer", 1⟩]
        [⟨100, 2, "bar", "cfg0", 0⟩, ⟨101, 2, "line", "cfg1", 1⟩] 10
      = sessionHistory
        [⟨2, 10, "assistant", "answer", 1⟩, ⟨1, 10, "user", "hi", 0⟩]
        [⟨101, 2, "line", "cfg1", 1⟩, ⟨100, 2, "bar", "cfg0", 0⟩] 10 :=
  history_read_idempotent
    [⟨1, 10, "user", "hi", 0⟩, ⟨2, 10, "assistant", "answer", 1⟩]
    [⟨2, 10, "assistant", "answer", 1⟩, ⟨1, 10, "user", "hi", 0⟩]
    [⟨100, 2, "bar", "cfg0", 0⟩, ⟨101, 2, "line", "cfg1", 1⟩]
    [⟨101, 2, "line", "cfg1", 1⟩, ⟨100, 2, "bar", "cfg0", 0⟩]
    10 (by decide) (by decide) (by decide) (by decide)

end Brain
